import Mathlib

/-!
Shallow embedding of `src/compress_video.py` and proofs about it.

The module has three parts, mirroring the three components of the program:

* the Command Builder (lines 63–91 of the source): `resolutionToken`,
  `buildCmd`;
* the Transcode Runner's stderr-monitoring loop and final progress flush
  (lines 93–110): `extractTime`, `processLines`, `observedValues`,
  `runMonitor`, `runObserved`;
* the Report Generator (lines 112–114): `summarize`.

Numeric values that are Python floats in the source (durations, parsed
timestamps, sizes entering a true division) are embedded as exact rationals
`ℚ`; machine floating point rounding is not modelled.  Status lines are
embedded as `List Char`, and the string operations used by the source
(`in`, `str.split`) are re-implemented below with the same semantics so that
every definition evaluates inside the kernel.
-/

namespace CompressVideo

/-- Python exceptions that the source can raise in the embedded fragment:
`ValueError` from `float(...)` or tuple unpacking in the monitor loop, and
`ZeroDivisionError` from `diff_size/ip_size` in the report line. -/
inductive PyError
  | valueError
  | zeroDivisionError
  deriving DecidableEq, Repr

/-- Helper for the string operations: `dropStart? pat l = some rest` exactly
when `l = pat ++ rest`. -/
def dropStart? : List Char → List Char → Option (List Char)
  | [], l => some l
  | _ :: _, [] => none
  | c :: cs, d :: ds => if c = d then dropStart? cs ds else none

/-- Models the Python substring test `pat in line` (for the nonempty
constant patterns used by the source). -/
def containsSeq (pat : List Char) : List Char → Bool
  | [] => pat.isEmpty
  | c :: rest => (dropStart? pat (c :: rest)).isSome || containsSeq pat rest

/-- Fuel-indexed worker for `splitSeq`; with `fuel ≥ l.length` it computes
the Python `str.split` for a nonempty separator `pat`. -/
def splitOnFuel (pat : List Char) : Nat → List Char → List (List Char)
  | _, [] => [[]]
  | 0, l => [l]
  | fuel + 1, c :: rest =>
    match dropStart? pat (c :: rest) with
    | some tail => [] :: splitOnFuel pat fuel tail
    | none =>
      match splitOnFuel pat fuel rest with
      | [] => [[c]]
      | g :: gs => (c :: g) :: gs

/-- Models Python `l.split(pat)` for a nonempty separator: splits on the
non-overlapping occurrences of `pat`, scanning left to right, and keeps
empty segments, exactly as `str.split` with an explicit separator does. -/
def splitSeq (pat l : List Char) : List (List Char) := splitOnFuel pat l.length l

/-- Accumulator loop for `digitsVal`. -/
def digitsValAux : List Char → Nat → Option Nat
  | [], acc => some acc
  | c :: cs, acc =>
    if c.isDigit then digitsValAux cs (acc * 10 + (c.toNat - 48)) else none

/-- Value of a nonempty all-digit string; `none` on anything else. -/
def digitsVal (cs : List Char) : Option Nat :=
  if cs.isEmpty then none else digitsValAux cs 0

/-- Models Python `float(...)` on the plain decimal strings that occur
inside an `ffmpeg` `time=` token: an optional sign followed by digits with
at most one fraction point.  Exponent, `inf`/`nan` and surrounding
whitespace forms never occur in those tokens and are not modelled; on any
other string the result is `none`, which the caller turns into a
`ValueError`. -/
def pyFloat (s : List Char) : Option ℚ :=
  let signSplit : Bool × List Char :=
    match s with
    | '-' :: rest => (true, rest)
    | '+' :: rest => (false, rest)
    | _ => (false, s)
  let neg := signSplit.1
  let body := signSplit.2
  let val : Option ℚ :=
    match splitSeq ['.'] body with
    | [ip] => (digitsVal ip).map (fun n => (n : ℚ))
    | [ip, fp] =>
      if ip.isEmpty && fp.isEmpty then none
      else
        match (if ip.isEmpty then some 0 else digitsVal ip),
              (if fp.isEmpty then some 0 else digitsVal fp) with
        | some i, some f => some ((i : ℚ) + (f : ℚ) / (10 : ℚ) ^ fp.length)
        | _, _ => none
    | _ => none
  val.map (fun q => if neg then -q else q)

/-- The token scanned for by the monitor loop, source line 98. -/
def timeTok : List Char := ['t', 'i', 'm', 'e', '=']

/-- One status line of the stderr stream, source lines 98–102:

* if the line has no `time=` token the loop body does nothing (`.ok none`);
* otherwise `time_str = line.split('time=')[1].split(' ')[0]` is split on
  the colon and unpacked as `hours, minutes, seconds = map(float, ...)`;
  any shape other than three float fields raises `ValueError`;
* on success the elapsed seconds `hours*3600 + minutes*60 + seconds` are
  returned. -/
def extractTime (line : List Char) : Except PyError (Option ℚ) :=
  if containsSeq timeTok line then
    match (splitSeq timeTok line).get? 1 with
    | none => .error .valueError
    | some afterTok =>
      let time_str := (splitSeq [' '] afterTok).headD []
      match splitSeq [':'] time_str with
      | [h, m, s] =>
        match pyFloat h, pyFloat m, pyFloat s with
        | some hours, some minutes, some seconds =>
          .ok (some (hours * 3600 + minutes * 60 + seconds))
        | _, _, _ => .error .valueError
      | _ => .error .valueError
  else .ok none

/-- One iteration of the monitor loop on bar value `n`, source lines
97–103: `pbar.update(current_time - pbar.n)` leaves the bar at
`n + (current_time - n)`. -/
def runnerStep (n : ℚ) (line : List Char) : Except PyError ℚ :=
  match extractTime line with
  | .ok none => .ok n
  | .ok (some current_time) => .ok (n + (current_time - n))
  | .error e => .error e

/-- The whole monitor loop (source lines 97–103) folded over the stderr
lines, starting from bar value `n`; an exception aborts the loop. -/
def processLines (n : ℚ) : List (List Char) → Except PyError ℚ
  | [] => .ok n
  | line :: rest =>
    match runnerStep n line with
    | .ok n₁ => processLines n₁ rest
    | .error e => .error e

/-- The successive bar values seen by the progress indicator during the
loop: one entry per `pbar.update` call fired by a `time=` line.  A raised
exception ends the sequence (no further updates fire). -/
def observedValues (n : ℚ) : List (List Char) → List ℚ
  | [] => []
  | line :: rest =>
    match extractTime line with
    | .ok none => observedValues n rest
    | .ok (some current_time) =>
      (n + (current_time - n)) :: observedValues (n + (current_time - n)) rest
    | .error _ => []

/-- The elapsed-seconds values successfully parsed from the lines, up to
the first exception. -/
def parsedTimes : List (List Char) → List ℚ
  | [] => []
  | line :: rest =>
    match extractTime line with
    | .ok none => parsedTimes rest
    | .ok (some current_time) => current_time :: parsedTimes rest
    | .error _ => []

/-- The `total` argument handed to `tqdm` on source line 94: the untrimmed
input duration. -/
def pbarTotal (duration : ℚ) : ℚ := duration

/-- The final bar value of a run, source lines 97–109: the loop over the
stderr lines followed by the forced flush `pbar.update(duration - pbar.n)`.
The bar starts at `0`; an exception in the loop skips the flush. -/
def runMonitor (duration : ℚ) (lines : List (List Char)) : Except PyError ℚ :=
  match processLines 0 lines with
  | .ok n => .ok (n + (duration - n))
  | .error e => .error e

/-- All bar values seen by the progress indicator over a whole run,
including the forced final flush of source line 109 when the loop finishes
without an exception. -/
def runObserved (duration : ℚ) (lines : List (List Char)) : List ℚ :=
  match processLines 0 lines with
  | .ok n => observedValues 0 lines ++ [n + (duration - n)]
  | .error _ => observedValues 0 lines

/-- The keyword arguments of `compress_video` that shape the built command,
source lines 41–50. -/
structure TranscodeRequest where
  input_file_path : String
  output_file_path : String
  fps : ℕ
  seconds_to_cut : ℚ
  video_resolution : String
  overwrite : Bool
  remove_audio : Bool
  crop_video : Bool

/-- The rectangle returned by `get_roi_to_crop` (an `(x, y, width, height)`
tuple), source line 39. -/
structure Roi where
  x : ℕ
  y : ℕ
  w : ℕ
  h : ℕ

/-- The `match` on `video_resolution`, source lines 66–72.  The Python
`match` has no default case, so a string outside the three named tiers
leaves the variable unchanged. -/
def resolutionToken (video_resolution : String) : String :=
  match video_resolution with
  | "low" => "480"
  | "medium" => "720"
  | "high" => "1080"
  | s => s

/-- Stands in for the Python `str(new_duration)` of source line 84.  The
exact numeral formatting of a Python float is not modelled; no claim
depends on it. -/
def ratStr (q : ℚ) : String :=
  if q.den = 1 then toString q.num else toString q.num ++ "/" ++ toString q.den

/-- The comma-joined frame-rate/scale filter chain of source line 85, the
format string `fps={fps},scale={video_resolution}:-1`. -/
def vfChain (req : TranscodeRequest) : String :=
  "fps=" ++ toString req.fps ++ ",scale=" ++
    resolutionToken req.video_resolution ++ ":-1"

/-- The crop filter string of source line 77, the format string
`crop={w}:{h}:{x}:{y}`. -/
def cropFilter (roi : Roi) : String :=
  "crop=" ++ toString roi.w ++ ":" ++ toString roi.h ++ ":" ++
    toString roi.x ++ ":" ++ toString roi.y

/-- The command token list built on source lines 63–91.  Here `duration` is
the probed input duration and `roi` the rectangle returned by the ROI
selector (used only when `crop_video` is set).  The source performs no
validation here: the builder is a total function. -/
def buildCmd (req : TranscodeRequest) (duration : ℚ) (roi : Roi) : List String :=
  let new_duration := duration - req.seconds_to_cut
  let single_cmd : List String :=
    if req.crop_video then ["-vf", cropFilter roi] else []
  ["ffmpeg", "-i", req.input_file_path,
   "-t", ratStr new_duration,
   "-vf", vfChain req,
   "-c:v", "libx265"]
  ++ single_cmd
  ++ (if req.remove_audio then ["-an"] else ["-c:a", "copy"])
  ++ [(if req.overwrite then "-y" else "n"), req.output_file_path]

/-- Recognises tokens that are a crop filter: strings beginning with the
five characters of `crop=`. -/
def isCropTok (s : String) : Bool :=
  (dropStart? ['c', 'r', 'o', 'p', '='] s.data).isSome

/-- The report computation of source lines 113–114: the percentage
`diff_size/ip_size*100` and the kilobyte figure `diff_size/1024` that are
printed.  Python raises `ZeroDivisionError` on a zero `ip_size`; otherwise
the slash is exact true division on the two integers. -/
def summarize (ip_size op_size : ℤ) : Except PyError (ℚ × ℚ) :=
  let diff_size := ip_size - op_size
  if ip_size = 0 then .error .zeroDivisionError
  else .ok (((diff_size : ℚ) / (ip_size : ℚ)) * 100, (diff_size : ℚ) / 1024)

/-- A realistic `ffmpeg` status line reporting elapsed time 10 s. -/
def cexLine1 : List Char :=
  "frame=  250 fps=25 time=00:00:10.00 bitrate= 110.3kbits/s".toList

/-- A realistic `ffmpeg` status line reporting elapsed time 5 s. -/
def cexLine2 : List Char :=
  "frame=  125 fps=25 time=00:00:05.00 bitrate= 110.3kbits/s".toList

/-- A status line carrying no `time=` token. -/
def cexNoTok : List Char := "frame=  250 fps=25 q=28.0 size=  512kB".toList

/-- A zero rectangle, for requests that do not crop. -/
def roiZero : Roi := ⟨0, 0, 0, 0⟩

/-- A concrete rectangle for the cropping scenario. -/
def roiC7 : Roi := ⟨4, 8, 640, 360⟩

/-- A request with the unrecognized resolution tier `4k`. -/
def reqC2 : TranscodeRequest :=
  ⟨"in.mp4", "out.mp4", 25, 0, "4k", true, true, false⟩

/-- A request whose `seconds_to_cut` equals the whole input duration used
with it (10 s), so the computed output duration is 0. -/
def reqC3 : TranscodeRequest :=
  ⟨"in.mp4", "out.mp4", 25, 10, "low", true, true, false⟩

/-- A request with `overwrite = false`. -/
def reqC5 : TranscodeRequest :=
  ⟨"in.mp4", "out.mp4", 25, 0, "low", false, true, false⟩

/-- A request with cropping enabled. -/
def reqC7 : TranscodeRequest :=
  ⟨"in.mp4", "out.mp4", 25, 0, "low", true, true, true⟩

/-! Helper lemmas. -/

/-- Evaluation of the parser on `cexLine1`, with the rational written as the
definition builds it. -/
theorem extractTime_cex1 :
    extractTime cexLine1 =
      .ok (some (((0 : ℕ) : ℚ) * 3600 + ((0 : ℕ) : ℚ) * 60 +
        (((10 : ℕ) : ℚ) + ((0 : ℕ) : ℚ) / (10 : ℚ) ^ 2))) := rfl

/-- The parser reads 10 s out of `cexLine1`. -/
theorem extractTime_cex1_val : extractTime cexLine1 = .ok (some 10) := by
  rw [extractTime_cex1]; norm_num

/-- Evaluation of the parser on `cexLine2`, with the rational written as the
definition builds it. -/
theorem extractTime_cex2 :
    extractTime cexLine2 =
      .ok (some (((0 : ℕ) : ℚ) * 3600 + ((0 : ℕ) : ℚ) * 60 +
        (((5 : ℕ) : ℚ) + ((0 : ℕ) : ℚ) / (10 : ℚ) ^ 2))) := rfl

/-- The parser reads 5 s out of `cexLine2`. -/
theorem extractTime_cex2_val : extractTime cexLine2 = .ok (some 5) := by
  rw [extractTime_cex2]; norm_num

/-- A line with a parsed time `t` moves the loop state to exactly `t`. -/
theorem processLines_cons_time (n t : ℚ) (line : List Char) (rest : List (List Char))
    (h : extractTime line = .ok (some t)) :
    processLines n (line :: rest) = processLines t rest := by
  simp only [processLines, runnerStep, h]
  rw [show n + (t - n) = t by ring]

/-- The loop over the single line `cexLine1` ends at bar value 10. -/
theorem processLines_cex1 : processLines 0 [cexLine1] = .ok 10 := by
  rw [processLines_cons_time 0 10 _ _ extractTime_cex1_val]
  rfl

/-- A line with a parsed time `t` contributes the observed value `t`. -/
theorem observedValues_cons_time (n t : ℚ) (line : List Char) (rest : List (List Char))
    (h : extractTime line = .ok (some t)) :
    observedValues n (line :: rest) = t :: observedValues t rest := by
  simp only [observedValues, h]
  rw [show n + (t - n) = t by ring]

/-- The values observed by the progress indicator during the loop are
exactly the parsed elapsed times, independent of the starting bar value:
each update sets the bar to the parsed value with no clamping. -/
theorem observedValues_eq_parsedTimes (n : ℚ) (lines : List (List Char)) :
    observedValues n lines = parsedTimes lines := by
  induction lines generalizing n with
  | nil => rfl
  | cons line rest ih =>
    cases h : extractTime line with
    | error e => simp [observedValues, parsedTimes, h]
    | ok o =>
      cases o with
      | none => simp only [observedValues, parsedTimes, h]; exact ih n
      | some t =>
        simp only [observedValues, parsedTimes, h]
        rw [show n + (t - n) = t by ring, ih t]

/-- Unfolding lemma for `parsedTimes` on a line with a parsed time. -/
theorem parsedTimes_cons_time (t : ℚ) (line : List Char) (rest : List (List Char))
    (h : extractTime line = .ok (some t)) :
    parsedTimes (line :: rest) = t :: parsedTimes rest := by
  simp only [parsedTimes, h]

/-- The time parsed from `cexLine1` stays below the trimmed duration
`20 - 5`. -/
theorem parsedTimes_cex1_le : ∀ t ∈ parsedTimes [cexLine1], t ≤ 20 - 5 := by
  rw [parsedTimes_cons_time 10 _ _ extractTime_cex1_val]
  norm_num [parsedTimes]

/-- Digit characters produced by the decimal printer are digits. -/
theorem digitChar_isDigit {n : Nat} (h : n < 10) : (Nat.digitChar n).isDigit = true := by
  interval_cases n <;> decide

/-- Every character the decimal printer core emits is a digit or comes from
the accumulator. -/
theorem toDigitsCore_mem (fuel : Nat) : ∀ (n : Nat) (ds : List Char) (c : Char),
    c ∈ Nat.toDigitsCore 10 fuel n ds → c ∈ ds ∨ c.isDigit = true := by
  induction fuel with
  | zero => intro n ds c hc; exact Or.inl hc
  | succ fuel ih =>
    intro n ds c hc
    simp only [Nat.toDigitsCore] at hc
    by_cases h : n / 10 = 0
    · rw [if_pos h] at hc
      rcases List.mem_cons.mp hc with h1 | h1
      · exact Or.inr (h1 ▸ digitChar_isDigit (Nat.mod_lt n (by norm_num)))
      · exact Or.inl h1
    · rw [if_neg h] at hc
      rcases ih _ _ _ hc with h1 | h1
      · rcases List.mem_cons.mp h1 with h2 | h2
        · exact Or.inr (h2 ▸ digitChar_isDigit (Nat.mod_lt n (by norm_num)))
        · exact Or.inl h2
      · exact Or.inr h1

/-- Every character of a printed natural number is a digit. -/
theorem natRepr_mem (n : Nat) (c : Char) (hc : c ∈ (Nat.repr n).data) :
    c.isDigit = true := by
  have h0 : (Nat.repr n).data = Nat.toDigitsCore 10 (n + 1) n [] := rfl
  rw [h0] at hc
  rcases toDigitsCore_mem _ _ _ _ hc with h | h
  · simp at h
  · exact h

/-- Every character of a printed integer is a digit or a minus sign. -/
theorem intRepr_mem (i : ℤ) (c : Char) (hc : c ∈ (Int.repr i).data) :
    c.isDigit = true ∨ c = '-' := by
  cases i with
  | ofNat m => exact Or.inl (natRepr_mem m c hc)
  | negSucc m =>
    have h0 : (Int.repr (Int.negSucc m)).data = '-' :: (Nat.repr (m + 1)).data := rfl
    rw [h0] at hc
    rcases List.mem_cons.mp hc with h | h
    · exact Or.inr h
    · exact Or.inl (natRepr_mem _ c h)

/-- Every character of a printed rational is a digit, a minus sign or a
slash. -/
theorem ratStr_mem (q : ℚ) (c : Char) (hc : c ∈ (ratStr q).data) :
    c.isDigit = true ∨ c = '-' ∨ c = '/' := by
  unfold ratStr at hc
  by_cases h : q.den = 1
  · rw [if_pos h] at hc
    rcases intRepr_mem q.num c hc with h1 | h1
    · exact Or.inl h1
    · exact Or.inr (Or.inl h1)
  · rw [if_neg h] at hc
    have h0 : (toString q.num ++ "/" ++ toString q.den).data
        = (toString q.num).data ++ '/' :: (toString q.den).data := by
      simp [String.data_append]
    rw [h0] at hc
    rcases List.mem_append.mp hc with h1 | h1
    · rcases intRepr_mem q.num c h1 with h2 | h2
      · exact Or.inl h2
      · exact Or.inr (Or.inl h2)
    · rcases List.mem_cons.mp h1 with h2 | h2
      · exact Or.inr (Or.inr h2)
      · exact Or.inl (natRepr_mem _ c h2)

/-- A crop token starts with the letter c. -/
theorem isCropTok_mem_c {s : String} (h : isCropTok s = true) : 'c' ∈ s.data := by
  unfold isCropTok at h
  cases hd : s.data with
  | nil => rw [hd] at h; simp [dropStart?] at h
  | cons c rest =>
    rw [hd] at h
    by_cases hc : ('c' : Char) = c
    · exact hc ▸ List.mem_cons_self ..
    · simp [dropStart?, hc] at h

/-- A printed rational is never a crop token. -/
theorem isCropTok_ratStr (q : ℚ) : isCropTok (ratStr q) = false := by
  by_contra h
  rcases ratStr_mem q 'c' (isCropTok_mem_c (by simpa using h)) with h1 | h1 | h1 <;>
    simp at h1

/-- The frame-rate/scale chain is never a crop token (it starts with the
letter f). -/
theorem isCropTok_vfChain (req : TranscodeRequest) : isCropTok (vfChain req) = false := rfl

/-- The crop filter string is always a crop token. -/
theorem isCropTok_cropFilter (roi : Roi) : isCropTok (cropFilter roi) = true := rfl

set_option maxHeartbeats 1000000 in
/-- Every token of a built command is one of the finitely many token shapes
appearing in the source list literal. -/
theorem mem_buildCmd (req : TranscodeRequest) (duration : ℚ) (roi : Roi) (tok : String)
    (h : tok ∈ buildCmd req duration roi) :
    tok = "ffmpeg" ∨ tok = "-i" ∨ tok = req.input_file_path ∨ tok = "-t"
    ∨ tok = ratStr (duration - req.seconds_to_cut) ∨ tok = "-vf" ∨ tok = vfChain req
    ∨ tok = "-c:v" ∨ tok = "libx265"
    ∨ (req.crop_video = true ∧ tok = cropFilter roi)
    ∨ tok = "-an" ∨ tok = "-c:a" ∨ tok = "copy" ∨ tok = "-y" ∨ tok = "n"
    ∨ tok = req.output_file_path := by
  rcases Bool.eq_false_or_eq_true req.crop_video with hcv | hcv <;>
    rcases Bool.eq_false_or_eq_true req.remove_audio with hra | hra <;>
    rcases Bool.eq_false_or_eq_true req.overwrite with how | how <;>
    simp only [buildCmd, hcv, hra, how, eq_self_iff_true, Bool.false_eq_true, ite_true,
      ite_false, List.append_assoc, List.mem_append, List.mem_cons, List.not_mem_nil,
      or_false, List.nil_append] at h <;>
    tauto

/-- The rational zero prints as the token 0. -/
theorem ratStr_zero : ratStr 0 = "0" := by
  unfold ratStr
  norm_num
  rfl

/-- The rational ten prints as the token 10. -/
theorem ratStr_ten : ratStr 10 = "10" := by
  unfold ratStr
  norm_num
  rfl

/-- Full evaluation of the builder on the `overwrite = false` request. -/
theorem C5_cmd_eval :
    buildCmd reqC5 10 roiZero =
      ["ffmpeg", "-i", "in.mp4", "-t", "10", "-vf", "fps=25,scale=480:-1",
       "-c:v", "libx265", "-an", "n", "out.mp4"] := by
  simp only [buildCmd]
  rw [show reqC5.seconds_to_cut = (0 : ℚ) from rfl,
    show (10 : ℚ) - 0 = 10 by norm_num, ratStr_ten]
  rfl

/-! Claim theorems. -/

/-- Claim C1, counterexample: the source applies no clamping, so the stream
that reports 10 s and then (out of order) 5 s makes the progress indicator
move backward: the observed sequence is `[10, 5]`, which is not
non-decreasing.  This refutes the claim that the callback sequence is
monotonically non-decreasing for every stream of status lines. -/
theorem C1_counterexample :
    observedValues 0 [cexLine1, cexLine2] = [10, 5] ∧
    ¬ List.Chain' (fun a b => a ≤ b) (observedValues 0 [cexLine1, cexLine2]) := by
  have h : observedValues 0 [cexLine1, cexLine2] = [10, 5] := by
    rw [observedValues_cons_time 0 10 _ _ extractTime_cex1_val,
      observedValues_cons_time 10 5 _ _ extractTime_cex2_val]
    rfl
  refine ⟨h, ?_⟩
  rw [h]
  simp only [List.chain'_cons, List.chain'_singleton, and_true]
  norm_num

/-- Claim C1, amended: the runner applies no clamping.  A status line whose
`time=` token parses to `t` sets the progress value to exactly `t`, whatever
the current bar value `n` is — also when `t < n`, in which case the
indicator moves backward.  The observed sequence is therefore non-decreasing
only when the parsed times themselves arrive in non-decreasing order. -/
theorem C1_progress_not_clamped (n t : ℚ) (line : List Char)
    (h : extractTime line = .ok (some t)) :
    runnerStep n line = .ok t := by
  simp only [runnerStep, h]
  rw [show n + (t - n) = t by ring]

/-- Claim C1, witness: the amended theorem at bar value 10 and the 5 s
line. -/
theorem C1_witness : runnerStep 10 cexLine2 = .ok 5 :=
  C1_progress_not_clamped 10 5 cexLine2 extractTime_cex2_val

/-- Claim C2, counterexample: on the unrecognized tier `4k` the builder does
not fail — no `InvalidResolutionError` exists in the source — and the tier
string is passed through verbatim into the scale filter of the built
command. -/
theorem C2_counterexample :
    resolutionToken "4k" = "4k" ∧
    ∃ s t, s ++ ["-vf", "fps=25,scale=4k:-1"] ++ t = buildCmd reqC2 10 roiZero :=
  ⟨rfl, ⟨["ffmpeg", "-i", "in.mp4", "-t", ratStr (10 - 0)], _, rfl⟩⟩

/-- Claim C2, amended: the three valid tiers map to 480/720/1080, but the
builder is total and any other tier string is passed through unchanged into
the scale filter (the `match` of source lines 66–72 has no default case and
no error is raised). -/
theorem C2_tier_passthrough (req : TranscodeRequest) (duration : ℚ) (roi : Roi) :
    (∃ s t, s ++ ["-vf", vfChain req] ++ t = buildCmd req duration roi)
    ∧ resolutionToken "low" = "480" ∧ resolutionToken "medium" = "720"
    ∧ resolutionToken "high" = "1080"
    ∧ (req.video_resolution ∉ (["low", "medium", "high"] : List String) →
        resolutionToken req.video_resolution = req.video_resolution) := by
  refine ⟨⟨["ffmpeg", "-i", req.input_file_path, "-t",
    ratStr (duration - req.seconds_to_cut)], _, rfl⟩, rfl, rfl, rfl, ?_⟩
  intro h
  simp only [List.mem_cons, List.not_mem_nil, or_false, not_or] at h
  obtain ⟨hl, hm, hh⟩ := h
  unfold resolutionToken
  split <;> simp_all

/-- Claim C2, witness: the amended theorem applied to the `4k` request. -/
theorem C2_witness : resolutionToken "4k" = "4k" :=
  (C2_tier_passthrough reqC2 10 roiZero).2.2.2.2 (by decide)

/-- Claim C3, counterexample: with input duration 10 s and
`seconds_to_cut = 10` the output clip duration is 0, yet the builder
succeeds and emits the full command with the trim argument 0 — no
`InvalidDurationError` exists in the source, so nothing is surfaced before
the subprocess is spawned. -/
theorem C3_counterexample :
    buildCmd reqC3 10 roiZero =
      ["ffmpeg", "-i", "in.mp4", "-t", "0", "-vf", "fps=25,scale=480:-1",
       "-c:v", "libx265", "-an", "-y", "out.mp4"] := by
  simp only [buildCmd]
  rw [show reqC3.seconds_to_cut = (10 : ℚ) from rfl,
    show (10 : ℚ) - 10 = 0 by norm_num, ratStr_zero]
  rfl

/-- Claim C3, amended: the builder performs no duration validation — it is
total, and for every request it passes `duration - seconds_to_cut` as the
value of the trim argument, also when that value is zero or negative. -/
theorem C3_no_duration_validation (req : TranscodeRequest) (duration : ℚ) (roi : Roi) :
    ∃ s t, s ++ ["-t", ratStr (duration - req.seconds_to_cut)] ++ t
      = buildCmd req duration roi :=
  ⟨["ffmpeg", "-i", req.input_file_path], _, rfl⟩

/-- Claim C4: applying the report generator to a zero input size raises for
every output size — Python evaluates `diff_size/ip_size` and raises
`ZeroDivisionError`, the concrete form of the degenerate-input error; the
division is never silently turned into a zero or NaN result. -/
theorem C4_zero_input_raises (op_size : ℤ) :
    summarize 0 op_size = .error .zeroDivisionError := rfl

/-- Claim C5: the overwrite policy of source line 89.  With
`overwrite = true` the builder emits the unconditional-overwrite flag, but
with `overwrite = false` it emits the bare token n, which is not the
external tool's explicit no-overwrite flag (that would be the token -n):
the built command for the concrete `overwrite = false` request contains n
and does not contain -n. -/
theorem C5_overwrite_token_bug :
    (∀ (req : TranscodeRequest) (duration : ℚ) (roi : Roi),
      (if req.overwrite then "-y" else "n") ∈ buildCmd req duration roi) ∧
    "n" ∈ buildCmd reqC5 10 roiZero ∧
    "-n" ∉ buildCmd reqC5 10 roiZero := by
  refine ⟨?_, ?_, ?_⟩
  · intro req duration roi
    simp [buildCmd]
  · rw [C5_cmd_eval]; decide
  · rw [C5_cmd_eval]; decide

/-- Claim C6: when the monitor loop finishes without an exception (ending at
any bar value `n`), the forced flush of source line 109 makes the final
observed value exactly the total duration, regardless of `n`. -/
theorem C6_final_flush (duration : ℚ) (lines : List (List Char)) (n : ℚ)
    (h : processLines 0 lines = .ok n) :
    runMonitor duration lines = .ok (pbarTotal duration) ∧
    (runObserved duration lines).getLast? = some (pbarTotal duration) := by
  have hval : n + (duration - n) = duration := by ring
  constructor
  · simp only [runMonitor, h, hval, pbarTotal]
  · simp only [runObserved, h, hval, pbarTotal, List.getLast?_concat]

/-- Claim C6, witness: a run over one 10 s status line with total duration
25 s ends exactly at 25. -/
theorem C6_witness :
    runMonitor 25 [cexLine1] = .ok (pbarTotal 25) ∧
    (runObserved 25 [cexLine1]).getLast? = some (pbarTotal 25) :=
  C6_final_flush 25 [cexLine1] 10 processLines_cex1

/-- Claim C7: provided the two request paths are not themselves crop-shaped
tokens, the built command contains a crop token if and only if cropping is
requested; and when it is, the crop filter sits in its own separate filter
argument after the comma-joined frame-rate/scale chain, and differs from
that chain. -/
theorem C7_crop_filter_iff (req : TranscodeRequest) (duration : ℚ) (roi : Roi)
    (h1 : isCropTok req.input_file_path = false)
    (h2 : isCropTok req.output_file_path = false) :
    ((∃ tok ∈ buildCmd req duration roi, isCropTok tok = true) ↔ req.crop_video = true)
    ∧ (req.crop_video = true →
        ∃ s t, s ++ ["-vf", cropFilter roi] ++ t = buildCmd req duration roi
          ∧ vfChain req ∈ s ∧ cropFilter roi ≠ vfChain req) := by
  constructor
  · constructor
    · rintro ⟨tok, htok, hcrop⟩
      rcases mem_buildCmd req duration roi tok htok with
        rfl | rfl | rfl | rfl | rfl | rfl | rfl | rfl | rfl | hc | rfl | rfl | rfl | rfl
          | rfl | rfl
      · exact absurd hcrop (by decide)
      · exact absurd hcrop (by decide)
      · exact absurd hcrop (by rw [h1]; exact Bool.false_ne_true)
      · exact absurd hcrop (by decide)
      · exact absurd hcrop (by rw [isCropTok_ratStr]; exact Bool.false_ne_true)
      · exact absurd hcrop (by decide)
      · exact absurd hcrop (by rw [isCropTok_vfChain]; exact Bool.false_ne_true)
      · exact absurd hcrop (by decide)
      · exact absurd hcrop (by decide)
      · exact hc.1
      · exact absurd hcrop (by decide)
      · exact absurd hcrop (by decide)
      · exact absurd hcrop (by decide)
      · exact absurd hcrop (by decide)
      · exact absurd hcrop (by decide)
      · exact absurd hcrop (by rw [h2]; exact Bool.false_ne_true)
    · intro hcv
      exact ⟨cropFilter roi, by simp [buildCmd, hcv], isCropTok_cropFilter roi⟩
  · intro hcv
    refine ⟨["ffmpeg", "-i", req.input_file_path, "-t",
      ratStr (duration - req.seconds_to_cut), "-vf", vfChain req, "-c:v", "libx265"],
      (if req.remove_audio then ["-an"] else ["-c:a", "copy"]) ++
        [(if req.overwrite then "-y" else "n"), req.output_file_path], ?_, ?_, ?_⟩
    · simp [buildCmd, hcv]
    · simp
    · intro h
      have hx := isCropTok_cropFilter roi
      rw [h, isCropTok_vfChain] at hx
      exact Bool.noConfusion hx

/-- Claim C7, witness: the theorem at a concrete cropping request. -/
theorem C7_witness :
    ((∃ tok ∈ buildCmd reqC7 10 roiC7, isCropTok tok = true) ↔ reqC7.crop_video = true)
    ∧ (reqC7.crop_video = true →
        ∃ s t, s ++ ["-vf", cropFilter roiC7] ++ t = buildCmd reqC7 10 roiC7
          ∧ vfChain reqC7 ∈ s ∧ cropFilter roiC7 ≠ vfChain reqC7) :=
  C7_crop_filter_iff reqC7 10 roiC7 (by decide) (by decide)

/-- Claim C8: a status line without a `time=` token fires no progress
callback — the loop body leaves the bar value unchanged and contributes no
entry to the observed sequence. -/
theorem C8_ignored_line (n : ℚ) (line : List Char) (rest : List (List Char))
    (h : containsSeq timeTok line = false) :
    runnerStep n line = .ok n ∧
    observedValues n (line :: rest) = observedValues n rest := by
  have he : extractTime line = .ok none := by
    simp only [extractTime, h]
    rfl
  constructor
  · simp only [runnerStep, he]
  · simp only [observedValues, he]

/-- Claim C8, witness: the theorem at a concrete tokenless line. -/
theorem C8_witness :
    runnerStep 3 cexNoTok = .ok 3 ∧
    observedValues 3 [cexNoTok, cexLine1] = observedValues 3 [cexLine1] :=
  C8_ignored_line 3 cexNoTok [cexLine1] (by decide)

/-- Claim C9: for a positive input size and a larger output size the report
generator succeeds, and both printed figures — the percentage and the
kilobyte value — are negative; in particular sizes 1000 and 1200 report
minus twenty percent without an error. -/
theorem C9_negative_report (ip_size op_size : ℤ)
    (h0 : 0 < ip_size) (h1 : ip_size < op_size) :
    (∃ p k, summarize ip_size op_size = .ok (p, k) ∧ p < 0 ∧ k < 0) ∧
    summarize 1000 1200 = .ok (-20, -25 / 128) := by
  have hd : (((ip_size - op_size : ℤ) : ℚ)) < 0 := by
    rw [Int.cast_lt_zero]
    omega
  have hip : (0 : ℚ) < (ip_size : ℚ) := by exact_mod_cast h0
  constructor
  · have hne : ip_size ≠ 0 := by omega
    refine ⟨((ip_size - op_size : ℤ) : ℚ) / (ip_size : ℚ) * 100,
      ((ip_size - op_size : ℤ) : ℚ) / 1024, ?_, ?_, ?_⟩
    · simp [summarize, hne]
    · exact mul_neg_of_neg_of_pos (div_neg_of_neg_of_pos hd hip) (by norm_num)
    · exact div_neg_of_neg_of_pos hd (by norm_num)
  · norm_num [summarize]

/-- Claim C9, witness: the theorem at sizes 1000 and 1200. -/
theorem C9_witness :
    (∃ p k, summarize 1000 1200 = .ok (p, k) ∧ p < 0 ∧ k < 0) ∧
    summarize 1000 1200 = .ok (-20, -25 / 128) :=
  C9_negative_report 1000 1200 (by decide) (by decide)

/-- Claim C10: the total handed to the progress indicator is the untrimmed
input duration.  Consequently, for a run with `seconds_to_cut > 0` whose
status lines (as the trim argument makes the external tool do) report only
times up to `duration - seconds_to_cut`, every value observed during the
loop stays at or below `duration - seconds_to_cut`, strictly below the
total — and the indicator reaches the total only through the forced final
flush. -/
theorem C10_untrimmed_total (duration seconds_to_cut : ℚ) (lines : List (List Char))
    (n : ℚ) (hcut : 0 < seconds_to_cut)
    (hok : processLines 0 lines = .ok n)
    (hbound : ∀ t ∈ parsedTimes lines, t ≤ duration - seconds_to_cut) :
    pbarTotal duration = duration ∧
    (∀ v ∈ observedValues 0 lines,
      v ≤ duration - seconds_to_cut ∧ v < pbarTotal duration) ∧
    (runObserved duration lines).getLast? = some (pbarTotal duration) := by
  refine ⟨rfl, ?_, ?_⟩
  · intro v hv
    rw [observedValues_eq_parsedTimes] at hv
    have hb := hbound v hv
    exact ⟨hb, lt_of_le_of_lt hb (by simpa [pbarTotal] using sub_lt_self duration hcut)⟩
  · have hval : n + (duration - n) = duration := by ring
    simp only [runObserved, hok, hval, pbarTotal, List.getLast?_concat]

/-- Claim C10, witness: duration 20 s, 5 s cut, one status line at 10 s. -/
theorem C10_witness :
    pbarTotal 20 = 20 ∧
    (∀ v ∈ observedValues 0 [cexLine1], v ≤ 20 - 5 ∧ v < pbarTotal 20) ∧
    (runObserved 20 [cexLine1]).getLast? = some (pbarTotal 20) :=
  C10_untrimmed_total 20 5 [cexLine1] 10 (by norm_num) processLines_cex1
    parsedTimes_cex1_le

end CompressVideo
